import Mathlib

/-!
Verification of the rox bytecode virtual machine (a Rust port of clox).

The definitions below are a shallow embedding of the Rust sources:
`src/vm.rs` (dispatch loop, call protocol), `src/value.rs` (value model and
equality), `src/scanner.rs` (lexer), `src/compiler.rs` (return epilogues),
`src/native.rs` (the `clock` native) and `src/main.rs` (CLI driver).

Modelling conventions:
 - the VM value stack is a `List Value` with the top of the stack at the head;
 - `f64` numbers are modelled as exact rationals (`Rat`); the properties proved
   here concern tag dispatch and stack shape, not floating-point rounding;
 - heap handles (`GcRef<T>`) are natural-number indices into per-type lists;
 - operations that panic in Rust (`unwrap` on an empty stack) return `none`;
 - `src/gc.rs` is not part of the source tree; the string-interning map it
   provides is modelled from the specification where needed and marked as such.
-/

namespace Rox

/-- src/value.rs 28-40: the tagged `Value` union.  `Number` carries `f64`,
modelled as `Rat`; the five heap variants carry `GcRef` handles, modelled as
`Nat` indices; `NativeFunction` carries a `Native` function pointer, modelled by
the pointed-to function's identity as a `Nat`. -/
inductive Value where
  | nil
  | bool (b : Bool)
  | number (n : Rat)
  | string (s : Nat)
  | nativeFunction (f : Nat)
  | closure (c : Nat)
  | classV (c : Nat)
  | instanceV (i : Nat)
  | boundMethod (b : Nat)
deriving DecidableEq, Repr

/-- src/value.rs 43-45: only `Nil` and `Bool(false)` are falsey. -/
def Value.is_falsey : Value → Bool
  | .nil => true
  | .bool false => true
  | _ => false

/-- The string heap of the garbage collector: the interning pool.  A `GcRef<String>`
handle is an index into `strings`. -/
structure Gc where
  strings : List String
deriving DecidableEq, Repr

/-- Content of the string a handle denotes. -/
def Gc.deref (gc : Gc) (r : Nat) : String :=
  gc.strings.getD r ""

/-- Modelled from the spec: `Gc::intern` lives in `src/gc.rs`, which is absent from
the source tree (only its callers are present).  Spec §3: "All strings (source
literals, identifier constants, concatenation results, native names) pass through
an interning map keyed by content; two equal strings share one handle."  A string
already in the pool yields the existing handle; otherwise it is appended under a
fresh handle. -/
def Gc.intern (gc : Gc) (s : String) : Gc × Nat :=
  match gc.strings.findIdx? (fun t => t == s) with
  | some i => (gc, i)
  | none => (⟨gc.strings ++ [s]⟩, gc.strings.length)

/-- Interning every string of `ss` in turn, starting from an empty heap (as
`VM::new` does, beginning with `"init"` and the native name `"clock"`). -/
def internAll : List String → Gc
  | [] => ⟨[]⟩
  | s :: ss => ((internAll ss).intern s).1

/-- Result of one arithmetic instruction: the new stack and heap, or the message
passed to `runtime_error` before `VM::run` returns `InterpretResult::RuntimeError`. -/
inductive StepResult where
  | ok (stack : List Value) (gc : Gc)
  | runtimeError (msg : String)
deriving DecidableEq, Repr

/-- The `binary_op!(self, +)` arm of src/vm.rs (lines 48-69), executed by `OpAdd`
(line 549): pop `b` (the top), pop `a`; two Numbers push their sum, two Strings
push the interned concatenation of their contents, and any other pair of tags is
the runtime error below.  Popping an empty stack panics in Rust (`unwrap`),
modelled as `none`. -/
def binaryOpAdd (gc : Gc) (stack : List Value) : Option StepResult :=
  match stack with
  | b :: a :: rest =>
    some (match a, b with
      | .number x, .number y => .ok (.number (x + y) :: rest) gc
      | .string i, .string j =>
        let result := (gc.deref i) ++ (gc.deref j)
        let interned := gc.intern result
        .ok (.string interned.2 :: rest) interned.1
      | _, _ => .runtimeError "Operands must be two numbers or two strings.")
  | _ => none

/-- The `OpJumpIfFalse` arm of `VM::run` (src/vm.rs 574-579).  `ip` points at the
first operand byte (the opcode has just been fetched); `read_short` (109-113)
advances the instruction pointer past the two operand bytes and assembles the
16-bit big-endian offset; the offset is added to the instruction pointer exactly
when the top of the stack is falsey, and the condition is only `peek`ed, never
popped.  `peek` on an empty stack panics in Rust, modelled as `none`. -/
def stepJumpIfFalse (code : List Nat) (ip : Nat) (stack : List Value) :
    Option (Nat × List Value) :=
  let offset := (code.getD ip 0) <<< 8 ||| code.getD (ip + 1) 0
  let ip2 := ip + 2
  match stack with
  | [] => none
  | v :: _ => some (if v.is_falsey then (ip2 + offset, stack) else (ip2, stack))

/-- src/value.rs 149-153 as evaluated by `OpEqual` (src/vm.rs 542-546) on the two
popped locals `a` and `b`: Value's derived `PartialEq` compares handle variants by
handle; for `NativeFunction` operands the `impl PartialEq for Native` is
`std::ptr::eq(self, other)`, which compares the ADDRESSES of the two operand
references and never consults the contained function pointers, so that case is
parameterized here by those two addresses.  Number is `f64` equality, modelled as
exact rational equality (NaN does not occur in the model). -/
def value_eq (addr_a addr_b : Nat) : Value → Value → Bool
  | .nil, .nil => true
  | .bool a, .bool b => a == b
  | .number a, .number b => a == b
  | .string a, .string b => a == b
  | .nativeFunction _, .nativeFunction _ => addr_a == addr_b
  | .closure a, .closure b => a == b
  | .classV a, .classV b => a == b
  | .instanceV a, .instanceV b => a == b
  | .boundMethod a, .boundMethod b => a == b
  | _, _ => false

/-- The `OpEqual` arm of `VM::run` (src/vm.rs 542-546): pop `b`, pop `a`, push
`a == b`.  The two popped values live in two distinct stack locals of `run`, so
the reference addresses handed to Native's `PartialEq` are always distinct. -/
def opEqualStep (addr_a addr_b : Nat) (stack : List Value) : Option (List Value) :=
  match stack with
  | b :: a :: rest => some (Value.bool (value_eq addr_a addr_b a b) :: rest)
  | _ => none

/-- src/value.rs 94-99: a `Function` is arity, bytecode chunk, name and upvalue
descriptors.  Only `arity` and `name` are consulted by the call protocol modelled
here; the chunk and the upvalue descriptors play no part in `call`/`call_value`
and are omitted from the record. -/
structure ObjFunction where
  arity : Nat
  name : Nat
deriving DecidableEq, Repr

/-- src/value.rs 200-204: a `Closure` is a function handle plus upvalue handles. -/
structure ObjClosure where
  function : Nat
  upvalues : List Nat
deriving DecidableEq, Repr

/-- src/value.rs 241-245: a `Class` is a name and a method table (`Table` is a map
from interned-string handles to Values, modelled as an association list). -/
structure ObjClass where
  name : Nat
  methods : List (Nat × Value)
deriving DecidableEq, Repr

/-- src/value.rs 280-284: an `Instance` is its class handle and a field table.
The Rust field is named `class`, a reserved word in Lean. -/
structure ObjInstance where
  klass : Nat
  fields : List (Nat × Value)
deriving DecidableEq, Repr

/-- src/vm.rs 25-30: a call frame. -/
structure CallFrame where
  closure : Nat
  ip : Nat
  slot : Nat
deriving DecidableEq, Repr

/-- src/vm.rs 13. -/
def FRAME_MAX : Nat := 64

/-- The parts of the `VM` state (src/vm.rs 16-23) touched by the call protocol:
the value stack (top at the head of the list), the frame stack (innermost frame
last, as in the Rust `Vec`), the typed object heaps (allocation appends), and
the interned handle of the string `"init"`.  The globals table, the gc bookkeeping
and the open-upvalue list are not consulted by `call`/`call_value`. -/
structure VM where
  stack : List Value
  frames : List CallFrame
  functions : List ObjFunction
  closures : List ObjClosure
  classes : List ObjClass
  instObjects : List ObjInstance
  init_string : Nat
deriving DecidableEq, Repr

/-- Outcome of `call`/`call_value`, which in Rust return `bool` and make `VM::run`
answer `InterpretResult::RuntimeError` on `false`; the message passed to
`runtime_error` is carried here. -/
inductive CallResult where
  | ok (vm : VM)
  | runtimeError (msg : String)
deriving DecidableEq, Repr

/-- `Table::get` for the association-list model of the HashMap keyed by interned
string handles. -/
def tableGet (tbl : List (Nat × Value)) (key : Nat) : Option Value :=
  (tbl.find? fun p => p.1 == key).map fun p => p.2

/-- VM::call (src/vm.rs 180-201): check the callee's arity against the argument
count, check the frame budget, and push a frame whose `slot` makes the callee's
local 0 alias the callee itself.  Dereferencing a dangling handle panics in Rust;
theorems supply valid handles. -/
def VM.call (vm : VM) (closure_ref arg_count : Nat) : CallResult :=
  let closure := vm.closures.getD closure_ref ⟨0, []⟩
  let function := vm.functions.getD closure.function ⟨0, 0⟩
  if arg_count ≠ function.arity then
    let a := function.arity
    .runtimeError s!"Expected {a} arguments but got {arg_count}."
  else if vm.frames.length = FRAME_MAX then
    .runtimeError "Stack overflow."
  else
    .ok { vm with frames := vm.frames ++ [⟨closure_ref, 0, vm.stack.length - arg_count - 1⟩] }

/-- The `Value::Class` arm of `VM::call_value` (src/vm.rs 211-225): allocate a
fresh `Instance` of the class, overwrite the callee's stack slot (Rust index
`stack.len() - arg_count - 1` from the bottom, i.e. position `arg_count` from the
top) with it; if the class's method table holds an `init` closure, call it with
the arguments, otherwise require `arg_count == 0`. -/
def VM.call_value_class (vm : VM) (class_ref arg_count : Nat) : CallResult :=
  let inst_ref := vm.instObjects.length
  let vm1 : VM := { vm with instObjects := vm.instObjects ++ [⟨class_ref, []⟩] }
  let vm2 : VM := { vm1 with stack := vm1.stack.set arg_count (Value.instanceV inst_ref) }
  let cls := vm2.classes.getD class_ref ⟨0, []⟩
  match tableGet cls.methods vm2.init_string with
  | some (Value.closure init_ref) => vm2.call init_ref arg_count
  | _ =>
    if arg_count ≠ 0 then .runtimeError s!"Expected 0 arguments but got {arg_count}."
    else .ok vm2

/-- The three interpretation outcomes (src/vm.rs 42-46). -/
inductive InterpretResult where
  | Ok
  | CompileError
  | RuntimeError
deriving DecidableEq, Repr

/-- How the process terminates: a normal exit with a code, or a Rust panic
(`expect`), which is not a normal exit and in particular not `exit(74)`. -/
inductive ProcExit where
  | code (c : Nat)
  | panicked (msg : String)
deriving DecidableEq, Repr

/-- src/main.rs 36-40, `run_file`: `fs::read_to_string(path)` is unwrapped with
`.expect("Could not read the file.")`, so an unreadable file panics; on success
the file is interpreted and the result of `vm.interpret` is DISCARDED — `run_file`
returns to `main`, which falls off the end, so the process exits 0 whatever the
interpretation outcome was.  `read` is the outcome of reading the file. -/
def run_file (read : Option String) (interp : String → InterpretResult) : ProcExit :=
  match read with
  | none => .panicked "Could not read the file."
  | some contents =>
    let _ := interp contents
    .code 0

/-- src/main.rs 7-18, `main`: one argument (the program name alone) enters the
REPL (`none` here: the REPL loops on stdin and never exits through this path);
two arguments run the file; anything else prints usage and exits 64. -/
def mainExit (args : List String) (read : String → Option String)
    (interp : String → InterpretResult) : Option ProcExit :=
  if args.length = 1 then none
  else if args.length = 2 then some (run_file (read (args.getD 1 "")) interp)
  else some (.code 64)

/-- src/native.rs 5-12, `clock_native`: the `SystemTime` duration since
`UNIX_EPOCH` (held to nanosecond precision, passed in here as `now_nanos`) is
observed with `as_millis()` — whole milliseconds, truncating — and that
millisecond count is converted to an `f64` Number. -/
def clock_native (now_nanos : Nat) (_arg_count : Nat) (_values : List Value) : Value :=
  Value.number ((now_nanos / 1000000 : Nat) : Rat)

/-- Modelled from the spec, for comparison with `clock_native`: spec §6 says
"Pre-bound: `clock()` returns a Number (seconds since the epoch, fractional)",
i.e. the duration expressed in seconds keeping the fractional part. -/
def clock_spec (now_nanos : Nat) : Value :=
  Value.number ((now_nanos : Rat) / 1000000000)

/-- src/compiler.rs 59-65: the kind of function a compiler frame is building. -/
inductive FunctionType where
  | Function
  | Method
  | Initializer
  | Script
deriving DecidableEq, Repr

/-- The opcode mnemonics of the instruction set (src/chunk.rs, as dispatched by
`VM::run`). -/
inductive OpCode where
  | OpConstant | OpNil | OpTrue | OpFalse | OpPop
  | OpGetLocal | OpSetLocal | OpGetGlobal | OpDefineGlobal | OpSetGlobal
  | OpGetUpvalue | OpSetUpvalue | OpGetProperty | OpSetProperty | OpGetSuper
  | OpEqual | OpGreater | OpLess | OpAdd | OpSubtract | OpMultiply | OpDivide
  | OpNot | OpNegate | OpPrint | OpJump | OpJumpIfFalse | OpLoop
  | OpCall | OpInvoke | OpSuperInvoke | OpClosure | OpCloseUpvalue | OpReturn
  | OpClass | OpInherit | OpMethod
deriving DecidableEq, Repr

/-- One cell of a chunk's code vector: an opcode, or a raw operand byte written
after it (`emit_bytes(op, n)` writes two cells). -/
inductive Cell where
  | op (o : OpCode)
  | byte (b : Nat)
deriving DecidableEq, Repr

/-- Parser::emit_return (src/compiler.rs 283-291): the implicit epilogue appended
at the end of every function body.  For an `Initializer` it is
`OP_GET_LOCAL 0 ; OP_RETURN` (return the receiver in slot 0); for every other
function type it is `OP_NIL ; OP_RETURN`. -/
def emit_return (ftype : FunctionType) : List Cell :=
  if ftype = FunctionType.Initializer then
    [.op .OpGetLocal, .byte 0, .op .OpReturn]
  else
    [.op .OpNil, .op .OpReturn]

/-- The compile errors `return_statement` can report, identified by site (their
messages are "Can't return from top-level code." and "Can't return a value from
an initializer."). -/
inductive CompileErr where
  | returnFromTopLevel
  | returnValueFromInitializer
deriving DecidableEq, Repr

/-- Parser::return_statement (src/compiler.rs 357-373).  `value` is the compiled
code of the return expression when one is present (`return EXPR;`), `none` for a
bare `return;`.  Returns the emitted cells and the errors reported: top-level
`return` is an error; a bare return emits the `emit_return` epilogue for the
current function type; a valued return inside an `Initializer` is an error (the
expression is still compiled and `OP_RETURN` emitted, as in the source, which
keeps parsing after `self.error`). -/
def return_statement (ftype : FunctionType) (value : Option (List Cell)) :
    List Cell × List CompileErr :=
  let errs0 : List CompileErr :=
    if ftype = FunctionType.Script then [.returnFromTopLevel] else []
  match value with
  | none => (emit_return ftype, errs0)
  | some code =>
    let errs1 := errs0 ++
      (if ftype = FunctionType.Initializer then [.returnValueFromInitializer] else [])
    (code ++ [.op .OpReturn], errs1)

/-- `char::is_ascii_alphabetic` as used by src/scanner.rs: ASCII letters only. -/
def is_ascii_alphabetic (c : Char) : Bool :=
  (65 ≤ c.toNat && c.toNat ≤ 90) || (97 ≤ c.toNat && c.toNat ≤ 122)

/-- `char::is_ascii_digit`. -/
def is_ascii_digit (c : Char) : Bool :=
  48 ≤ c.toNat && c.toNat ≤ 57

/-- The identifier-continuation predicate of `Scanner::scan_identifier`
(src/scanner.rs 150-160): ASCII alphabetic or `_` — digits are NOT accepted. -/
def isIdentCont (c : Char) : Bool :=
  is_ascii_alphabetic c || c == '_'

/-- src/scanner.rs 195-242. -/
inductive TokenType where
  | LeftParen | RightParen | LeftBrace | RightBrace | Comma | Dot | Minus | Plus
  | Semicolon | Slash | Star
  | Bang | BangEqual | Equal | EqualEqual | Greater | GreaterEqual | Less | LessEqual
  | Identifier | String | Number
  | And | Class | Else | False | For | Fun | If | Nil | Or | Print
  | Return | Super | This | True | Var | While
  | Error | Eof
deriving DecidableEq, Repr

/-- src/scanner.rs 244-249: a token is its type, its lexeme (borrowed from the
source in Rust, materialized here) and its line. -/
structure Token where
  ttype : TokenType
  value : String
  line : Nat
deriving DecidableEq, Repr

/-- Scanner::identifier_type (src/scanner.rs 162-184): keyword recognition on the
scanned lexeme. -/
def identifier_type (s : String) : TokenType :=
  match s with
  | "and" => .And
  | "class" => .Class
  | "else" => .Else
  | "false" => .False
  | "for" => .For
  | "fun" => .Fun
  | "if" => .If
  | "nil" => .Nil
  | "or" => .Or
  | "print" => .Print
  | "return" => .Return
  | "super" => .Super
  | "this" => .This
  | "true" => .True
  | "var" => .Var
  | "while" => .While
  | _ => .Identifier

/-- Scanner::match_token (src/scanner.rs 85-92): a two-character operator when the
next character is `expected`, else the one-character operator. -/
def match_token (rest : List Char) (expected : Char) (t f : TokenType)
    (tval fval : String) (line : Nat) : Option (Token × List Char × Nat) :=
  match rest with
  | c :: rest2 =>
    if c = expected then some (⟨t, tval, line⟩, rest2, line)
    else some (⟨f, fval, line⟩, c :: rest2, line)
  | [] => some (⟨f, fval, line⟩, [], line)

/-- Scanner::scan_string (src/scanner.rs 114-129), entered after the opening `"`
was consumed: consume up to the closing quote, counting newlines.  The
`MultiPeek` cursor is left one position ahead when the loop exits, so the
`peek() == None` test that reports "Unterminated string." looks one character
PAST the closing quote: a string ending exactly at the end of input is reported
unterminated (and the closing quote is not consumed), as in the source.  The
token's value drops the surrounding quotes (`make_token`, lines 73-83). -/
def scan_string (cs : List Char) (line : Nat) : Option (Token × List Char × Nat) :=
  let body := cs.takeWhile (fun ch => ch ≠ '"')
  let rest := cs.dropWhile (fun ch => ch ≠ '"')
  let line2 := line + (body.filter (fun ch => ch = '\n')).length
  match rest with
  | [] => some (⟨.Error, "Unterminated string.", line2⟩, [], line2)
  | _ :: rest2 =>
    match rest2 with
    | [] => some (⟨.Error, "Unterminated string.", line2⟩, rest, line2)
    | _ => some (⟨.String, String.mk body, line2⟩, rest2, line2)

/-- Scanner::scan_number (src/scanner.rs 131-148), entered after the first digit
`c` was consumed: consume digits, then a fractional part only when a `.` is
immediately followed by a digit (the two successive `MultiPeek` peeks). -/
def scan_number (c : Char) (rest : List Char) (line : Nat) :
    Option (Token × List Char × Nat) :=
  let intPart := rest.takeWhile is_ascii_digit
  let r1 := rest.dropWhile is_ascii_digit
  match r1 with
  | '.' :: d :: r2 =>
    if is_ascii_digit d then
      some (⟨.Number, String.mk (c :: (intPart ++ '.' :: (d :: r2).takeWhile is_ascii_digit)), line⟩,
            (d :: r2).dropWhile is_ascii_digit, line)
    else some (⟨.Number, String.mk (c :: intPart), line⟩, r1, line)
  | _ => some (⟨.Number, String.mk (c :: intPart), line⟩, r1, line)

/-- Scanner::scan_identifier (src/scanner.rs 150-160), entered after the first
character `c` (ASCII alphabetic or `_`) was consumed: consume while the next
character is ASCII alphabetic or `_`, then classify the lexeme. -/
def scan_identifier (c : Char) (rest : List Char) (line : Nat) :
    Option (Token × List Char × Nat) :=
  let lexeme := String.mk (c :: rest.takeWhile isIdentCont)
  some (⟨identifier_type lexeme, lexeme, line⟩, rest.dropWhile isIdentCont, line)

/-- Scanner::scan_token (src/scanner.rs 26-64): dispatch on the first character.
Returns the token, the remaining characters and the updated line; `none` when the
input is exhausted (the Eof token is produced by the stream, see `scanAll`).
The `/` case inlines Scanner::scan_comment (102-112) including its `MultiPeek`
behaviour: the comment loop's first test peeks PAST the second `/`, so when a
`//` is immediately followed by a newline (or the input ends) the second slash is
left unconsumed and rescanned. -/
def scan_token (cs : List Char) (line : Nat) : Option (Token × List Char × Nat) :=
  match cs with
  | [] => none
  | c :: rest =>
    if c = '(' then some (⟨.LeftParen, "(", line⟩, rest, line)
    else if c = ')' then some (⟨.RightParen, ")", line⟩, rest, line)
    else if c = Char.ofNat 123 then some (⟨.LeftBrace, "\x7b", line⟩, rest, line)
    else if c = Char.ofNat 125 then some (⟨.RightBrace, "\x7d", line⟩, rest, line)
    else if c = ';' then some (⟨.Semicolon, ";", line⟩, rest, line)
    else if c = ',' then some (⟨.Comma, ",", line⟩, rest, line)
    else if c = '.' then some (⟨.Dot, ".", line⟩, rest, line)
    else if c = '-' then some (⟨.Minus, "-", line⟩, rest, line)
    else if c = '+' then some (⟨.Plus, "+", line⟩, rest, line)
    else if c = '/' then
      match rest with
      | s2 :: d :: rest3 =>
        if s2 = '/' then
          if d ≠ '\n' then scan_token ((d :: rest3).dropWhile (fun ch => ch ≠ '\n')) line
          else scan_token (s2 :: d :: rest3) line
        else some (⟨.Slash, "/", line⟩, s2 :: d :: rest3, line)
      | [s2] =>
        if s2 = '/' then scan_token [s2] line
        else some (⟨.Slash, "/", line⟩, [s2], line)
      | [] => some (⟨.Slash, "/", line⟩, [], line)
    else if c = '*' then some (⟨.Star, "*", line⟩, rest, line)
    else if c = '!' then match_token rest '=' .BangEqual .Bang "!=" "!" line
    else if c = '=' then match_token rest '=' .EqualEqual .Equal "==" "=" line
    else if c = '<' then match_token rest '=' .LessEqual .Less "<=" "<" line
    else if c = '>' then match_token rest '=' .GreaterEqual .Greater ">=" ">" line
    else if c = ' ' ∨ c = '\t' ∨ c = '\r' then scan_token rest line
    else if c = '\n' then scan_token rest (line + 1)
    else if c = '"' then scan_string rest line
    else if is_ascii_digit c then scan_number c rest line
    else if is_ascii_alphabetic c || c = '_' then scan_identifier c rest line
    else some (⟨.Error, "Unexpected character", line⟩, rest, line)
termination_by cs.length
decreasing_by
  all_goals simp_wf
  all_goals refine Nat.lt_of_le_of_lt ((List.dropWhile_sublist _).length_le) ?_
  all_goals simp only [List.length_cons]
  all_goals omega

/-- The token stream of `Scanner` as an `Iterator` (src/scanner.rs 187-193):
tokens until the source is exhausted, then one `Eof` token (the `is_finished`
flag makes the following `next()` return `None`).  `fuel` bounds the iteration;
any fuel larger than the length of the source is enough. -/
def scanAll (fuel : Nat) (cs : List Char) (line : Nat) : List Token :=
  match fuel with
  | 0 => []
  | fuel + 1 =>
    match scan_token cs line with
    | none => [⟨.Eof, "", line⟩]
    | some (t, rest, line2) => t :: scanAll fuel rest line2

/-- A concrete VM state used to instantiate the call-protocol theorems: one class
(handle 0) whose method table binds the interned `"init"` handle 5 to closure 0,
whose function has arity 1; the stack holds the class callee below one argument. -/
def vmW : VM where
  stack := [Value.number 1, Value.classV 0]
  frames := []
  functions := [⟨1, 9⟩]
  closures := [⟨0, []⟩]
  classes := [⟨0, [(5, Value.closure 0)]⟩]
  instObjects := []
  init_string := 5

/-- C1: the ADD instruction, executed with operands `a` (lower) and `b` (top) on
the value stack, pushes the Number `a + b` when both operands are Numbers, pushes
the interned concatenation when both are Strings, and for every other pair of
tags halts with the RuntimeError message
"Operands must be two numbers or two strings.". -/
theorem add_instruction_spec (gc : Gc) (a b : Value) (rest : List Value) :
    (∀ x y, a = Value.number x → b = Value.number y →
      binaryOpAdd gc (b :: a :: rest) =
        some (.ok (Value.number (x + y) :: rest) gc))
  ∧ (∀ i j, a = Value.string i → b = Value.string j →
      binaryOpAdd gc (b :: a :: rest) =
        some (.ok (Value.string (gc.intern (gc.deref i ++ gc.deref j)).2 :: rest)
               (gc.intern (gc.deref i ++ gc.deref j)).1))
  ∧ ((∀ x y, ¬(a = Value.number x ∧ b = Value.number y)) →
     (∀ i j, ¬(a = Value.string i ∧ b = Value.string j)) →
      binaryOpAdd gc (b :: a :: rest) =
        some (.runtimeError "Operands must be two numbers or two strings.")) := by
  refine ⟨?_, ?_, ?_⟩
  · rintro x y rfl rfl; rfl
  · rintro i j rfl rfl; rfl
  · intro hn hs
    cases a <;> cases b <;> first
      | rfl
      | exact absurd ⟨rfl, rfl⟩ (hn _ _)
      | exact absurd ⟨rfl, rfl⟩ (hs _ _)

/-- Concrete instance of C1: adding a Bool to a Number is the two-numbers-or-two-
strings runtime error. -/
theorem add_instruction_spec_witness :
    binaryOpAdd ⟨[]⟩ [Value.number 2, Value.bool true, Value.nil] =
      some (.runtimeError "Operands must be two numbers or two strings.") :=
  (add_instruction_spec ⟨[]⟩ (Value.bool true) (Value.number 2) [Value.nil]).2.2
    (fun _ _ h => Value.noConfusion h.1) (fun _ _ h => Value.noConfusion h.1)

/-- C4: JUMP_IF_FALSE decodes its 16-bit offset from the two operand bytes and
adds it to the current frame's instruction pointer exactly when the value on top
of the stack is falsey; taken or not, the condition value stays on the stack —
it is never popped. -/
theorem jump_if_false_spec (code : List Nat) (ip : Nat) (v : Value)
    (rest : List Value) (h1 : code.getD ip 0 < 256) (h2 : code.getD (ip + 1) 0 < 256) :
    ((code.getD ip 0) <<< 8 ||| code.getD (ip + 1) 0) < 65536 ∧
    stepJumpIfFalse code ip (v :: rest) =
      some (ip + 2 +
              (if v.is_falsey then (code.getD ip 0) <<< 8 ||| code.getD (ip + 1) 0 else 0),
            v :: rest) := by
  constructor
  · have e8 : (2 : Nat) ^ 8 = 256 := by norm_num
    have e16 : (2 : Nat) ^ 16 = 65536 := by norm_num
    have hs : (code.getD ip 0) <<< 8 < 2 ^ 16 := by
      rw [Nat.shiftLeft_eq, e8, e16]
      omega
    have hy : code.getD (ip + 1) 0 < 2 ^ 16 := by
      rw [e16]
      omega
    have ho := Nat.or_lt_two_pow hs hy
    rw [e16] at ho
    exact ho
  · unfold stepJumpIfFalse
    cases hv : v.is_falsey <;> simp [hv]

/-- Concrete instance of C4: with operand bytes 0,3 and a falsey top the
instruction pointer advances past the operands and then by the offset 3, leaving
the condition on the stack. -/
theorem jump_if_false_spec_witness :
    ((([0, 3] : List Nat).getD 0 0) <<< 8 ||| ([0, 3] : List Nat).getD (0 + 1) 0) < 65536 ∧
    stepJumpIfFalse [0, 3] 0 [Value.nil] =
      some (0 + 2 +
              (if Value.nil.is_falsey then
                (([0, 3] : List Nat).getD 0 0) <<< 8 ||| ([0, 3] : List Nat).getD (0 + 1) 0
               else 0),
            [Value.nil]) :=
  jump_if_false_spec [0, 3] 0 Value.nil [] (by decide) (by decide)

/-- C10: equality on native functions is not reflexive: Native's PartialEq
compares the addresses of the two operand references, not the contained function
pointers, so two NativeFunction values carrying the identical function pointer
compare unequal whenever the compared references are distinct — as they always
are for OpEqual, whose two operands are distinct popped locals. -/
theorem native_eq_not_reflexive (addr_a addr_b f : Nat) (h : addr_a ≠ addr_b) :
    value_eq addr_a addr_b (Value.nativeFunction f) (Value.nativeFunction f) = false ∧
    opEqualStep addr_a addr_b [Value.nativeFunction f, Value.nativeFunction f] =
      some [Value.bool false] := by
  have hb : (addr_a == addr_b) = false := by
    simpa using h
  constructor
  · simpa [value_eq] using hb
  · simp [opEqualStep, value_eq, hb]

/-- Concrete instance of C10: two copies of the same native (function pointer 7,
e.g. two reads of the global `clock`) held in distinct operand slots compare
unequal. -/
theorem native_eq_not_reflexive_witness :
    value_eq 0 1 (Value.nativeFunction 7) (Value.nativeFunction 7) = false ∧
    opEqualStep 0 1 [Value.nativeFunction 7, Value.nativeFunction 7] =
      some [Value.bool false] :=
  native_eq_not_reflexive 0 1 7 (by decide)

/-- C9: a method compiled as an Initializer implicitly returns local slot 0 (the
receiver): the epilogue emitted at end-of-body and for a bare `return;` is
`OP_GET_LOCAL 0 ; OP_RETURN`, while every other function type gets
`OP_NIL ; OP_RETURN`; a valued `return` inside an initializer is a compile
error. -/
theorem initializer_returns_slot_zero :
    (emit_return FunctionType.Initializer =
      [Cell.op .OpGetLocal, Cell.byte 0, Cell.op .OpReturn])
  ∧ (∀ ft, ft ≠ FunctionType.Initializer →
      emit_return ft = [Cell.op .OpNil, Cell.op .OpReturn])
  ∧ (return_statement FunctionType.Initializer none =
      ([Cell.op .OpGetLocal, Cell.byte 0, Cell.op .OpReturn], []))
  ∧ (∀ code, (return_statement FunctionType.Initializer (some code)).2 =
      [CompileErr.returnValueFromInitializer]) := by
  refine ⟨rfl, ?_, rfl, fun code => rfl⟩
  intro ft h
  unfold emit_return
  rw [if_neg h]

/-- Concrete instance of C9: an ordinary method's epilogue pushes nil, not
slot 0. -/
theorem initializer_returns_slot_zero_witness :
    emit_return FunctionType.Method = [Cell.op .OpNil, Cell.op .OpReturn] :=
  initializer_returns_slot_zero.2.1 FunctionType.Method (by decide)

/-- C6 counterexample: in file mode, a readable file whose interpretation is a
CompileError exits with code 0 (the interpret result is discarded by `run_file`),
not 65 as claimed. -/
theorem file_mode_exit_counterexample :
    mainExit ["rox", "bad.lox"] (fun _ => some "var ;") (fun _ => InterpretResult.CompileError)
      = some (ProcExit.code 0) ∧
    some (ProcExit.code 0) ≠ some (ProcExit.code 65) := by
  exact ⟨rfl, by decide⟩

/-- C6 amended: in file mode the exit code is 0 whenever the file is readable,
regardless of the interpretation result; an unreadable file terminates by panic
(`expect`), not with exit code 74; an argument count other than 1 or 2 exits
64. -/
theorem file_mode_exit_amended (prog path contents : String)
    (interp : String → InterpretResult) (r : String → Option String) :
    (mainExit [prog, path] (fun _ => some contents) interp = some (ProcExit.code 0))
  ∧ (mainExit [prog, path] (fun _ => none) interp
      = some (ProcExit.panicked "Could not read the file."))
  ∧ (∀ args : List String, 3 ≤ args.length →
      mainExit args r interp = some (ProcExit.code 64)) := by
  refine ⟨rfl, rfl, ?_⟩
  intro args h
  unfold mainExit
  rw [if_neg (by omega), if_neg (by omega)]

/-- Concrete instance of C6 (amended): three CLI arguments exit 64. -/
theorem file_mode_exit_amended_witness :
    mainExit ["rox", "a.lox", "b.lox"] (fun _ => some "print 1;")
      (fun _ => InterpretResult.Ok) = some (ProcExit.code 64) :=
  (file_mode_exit_amended "rox" "a.lox" "x" (fun _ => InterpretResult.Ok)
    (fun _ => some "print 1;")).2.2 ["rox", "a.lox", "b.lox"] (by decide)

/-- C7 counterexample: 1.5 seconds after the epoch (1 500 000 000 ns),
`clock_native` returns the Number 1500 — the duration in milliseconds — while a
seconds-since-the-epoch clock with a fractional part would return 1.5; the two
values differ. -/
theorem clock_counterexample :
    clock_native 1500000000 0 [] = Value.number 1500 ∧
    clock_spec 1500000000 = Value.number (3 / 2) ∧
    clock_native 1500000000 0 [] ≠ clock_spec 1500000000 := by
  refine ⟨rfl, ?_, ?_⟩
  · simp only [clock_spec, Value.number.injEq]
    norm_num
  · simp only [clock_native, clock_spec, ne_eq, Value.number.injEq]
    norm_num

/-- C7 amended: `clock()` returns a Number equal to the time since the epoch
expressed in whole MILLISECONDS (the floor of 1000 times the seconds value); it
carries no sub-second fraction of its own. -/
theorem clock_returns_milliseconds (now_nanos n : Nat) (vals : List Value) :
    ∃ m : Nat, clock_native now_nanos n vals = Value.number m ∧
      (m : Rat) ≤ 1000 * ((now_nanos : Rat) / 1000000000) ∧
      1000 * ((now_nanos : Rat) / 1000000000) < (m : Rat) + 1 := by
  refine ⟨now_nanos / 1000000, rfl, ?_, ?_⟩
  · have key : (1000 : Rat) * ((now_nanos : Rat) / 1000000000) =
        (now_nanos : Rat) / 1000000 := by
      field_simp
      ring
    rw [key, le_div_iff₀ (by norm_num)]
    have : (now_nanos / 1000000) * 1000000 ≤ now_nanos := Nat.div_mul_le_self _ _
    exact_mod_cast this
  · have key : (1000 : Rat) * ((now_nanos : Rat) / 1000000000) =
        (now_nanos : Rat) / 1000000 := by
      field_simp
      ring
    rw [key, div_lt_iff₀ (by norm_num)]
    have h1 : now_nanos < (now_nanos / 1000000 + 1) * 1000000 := by omega
    calc (now_nanos : Rat) < ((now_nanos / 1000000 + 1) * 1000000 : Nat) := by
          exact_mod_cast h1
      _ = ((now_nanos / 1000000 : Nat) + 1) * 1000000 := by push_cast; ring

/-- Interning preserves the no-duplicates invariant of the string pool. -/
theorem intern_nodup (gc : Gc) (s : String) (h : gc.strings.Nodup) :
    (gc.intern s).1.strings.Nodup := by
  unfold Gc.intern
  cases hfind : gc.strings.findIdx? (fun t => t == s) with
  | some i => simpa [hfind] using h
  | none =>
    have hnotmem : s ∉ gc.strings := by
      intro hmem
      have h2 := (List.findIdx?_eq_none_iff.mp hfind) s hmem
      simp at h2
    simp [hfind, List.nodup_append, h, hnotmem]

/-- Every pool the runtime builds by interning has pairwise-distinct contents. -/
theorem internAll_nodup (ss : List String) : (internAll ss).strings.Nodup := by
  induction ss with
  | nil => simp [internAll]
  | cons s ss ih => exact intern_nodup _ s ih

/-- The handle `intern` returns denotes exactly the interned content. -/
theorem intern_deref (gc : Gc) (s : String) :
    (gc.intern s).1.strings.getD (gc.intern s).2 "" = s := by
  unfold Gc.intern
  cases hfind : gc.strings.findIdx? (fun t => t == s) with
  | some i =>
    obtain ⟨hlt, hp, -⟩ := List.findIdx?_eq_some_iff_getElem.mp hfind
    simp only [hfind]
    rw [List.getD_eq_getElem?_getD, List.getElem?_eq_getElem hlt]
    simpa using hp
  | none =>
    simp only [hfind]
    rw [List.getD_eq_getElem?_getD, List.getElem?_append_right (le_refl _)]
    simp

/-- C5: interned strings are canonical.  In any string pool produced by the
runtime's interning (every runtime string passes through `intern`), the handle
returned for a string denotes exactly that content, and two valid handles are
equal iff the contents they denote are equal. -/
theorem interned_strings_canonical (ss : List String) (s : String) (i j : Nat)
    (hi : i < (internAll ss).strings.length) (hj : j < (internAll ss).strings.length) :
    (((internAll ss).intern s).1.strings.getD (((internAll ss).intern s).2) "" = s)
  ∧ (i = j ↔ (internAll ss).strings[i] = (internAll ss).strings[j]) :=
  ⟨intern_deref _ s, ((internAll_nodup ss).getElem_inj_iff).symm⟩

/-- Concrete instance of C5: in the pool built from `"init"` then `"clock"`,
re-interning `"init"` yields a handle denoting `"init"`, and the two distinct
handles 0 and 1 denote distinct contents. -/
theorem interned_strings_canonical_witness :
    ((0 : Nat) < (internAll ["clock", "init"]).strings.length) ∧
    ((1 : Nat) < (internAll ["clock", "init"]).strings.length) ∧
    ((((internAll ["clock", "init"]).intern "init").1.strings.getD
        (((internAll ["clock", "init"]).intern "init").2) "" = "init")
      ∧ ((0 : Nat) = 1 ↔
          (internAll ["clock", "init"]).strings[0] =
            (internAll ["clock", "init"]).strings[1])) :=
  ⟨by decide, by decide,
    interned_strings_canonical ["clock", "init"] "init" 0 1 (by decide) (by decide)⟩

/-- C2: calling a Class value constructs a fresh Instance of that class and
overwrites the callee's stack slot with it; when the class's method table holds
an `init` closure, that closure is called with the n arguments (so an arity
mismatch is a RuntimeError); without an `init` closure, n ≠ 0 is a RuntimeError
and n = 0 succeeds, leaving the instance in the callee slot. -/
theorem call_class_spec (vm : VM) (class_ref n : Nat) (hn : n < vm.stack.length) :
    (∀ init_ref a,
      tableGet (vm.classes.getD class_ref ⟨0, []⟩).methods vm.init_string
          = some (Value.closure init_ref) →
      (vm.functions.getD (vm.closures.getD init_ref ⟨0, []⟩).function ⟨0, 0⟩).arity = a →
      ((n ≠ a →
        vm.call_value_class class_ref n =
          .runtimeError s!"Expected {a} arguments but got {n}.") ∧
       (n = a → vm.frames.length < FRAME_MAX →
        vm.call_value_class class_ref n =
          .ok { vm with
                instObjects := vm.instObjects ++ [⟨class_ref, []⟩],
                stack := vm.stack.set n (Value.instanceV vm.instObjects.length),
                frames := vm.frames ++ [⟨init_ref, 0, vm.stack.length - n - 1⟩] })))
  ∧ ((∀ r, tableGet (vm.classes.getD class_ref ⟨0, []⟩).methods vm.init_string
          ≠ some (Value.closure r)) →
      ((n ≠ 0 →
        vm.call_value_class class_ref n =
          .runtimeError s!"Expected 0 arguments but got {n}.") ∧
       (n = 0 →
        vm.call_value_class class_ref n =
          .ok { vm with
                instObjects := vm.instObjects ++ [⟨class_ref, []⟩],
                stack := vm.stack.set 0 (Value.instanceV vm.instObjects.length) })))
  ∧ (vm.stack.set n (Value.instanceV vm.instObjects.length))[n]? =
      some (Value.instanceV vm.instObjects.length) := by
  refine ⟨?_, ?_, ?_⟩
  · intro init_ref a hinit harity
    constructor
    · intro hne
      simp only [VM.call_value_class, hinit, VM.call, harity]
      rw [if_pos hne]
    · rintro rfl hframes
      simp only [VM.call_value_class, hinit, VM.call, harity]
      rw [if_neg (by omega), if_neg (by omega)]
      simp [List.length_set]
  · intro hno
    have hmatch : ∀ gc2,
        (match tableGet (vm.classes.getD class_ref ⟨0, []⟩).methods vm.init_string with
          | some (Value.closure init_ref) => VM.call gc2 init_ref n
          | _ =>
            if n ≠ 0 then
              CallResult.runtimeError s!"Expected 0 arguments but got {n}."
            else CallResult.ok gc2) =
          (if n ≠ 0 then
            CallResult.runtimeError s!"Expected 0 arguments but got {n}."
          else CallResult.ok gc2) := by
      intro gc2
      cases hv : tableGet (vm.classes.getD class_ref ⟨0, []⟩).methods vm.init_string with
      | none => rfl
      | some v =>
        cases v with
        | closure r => exact absurd hv (hno r)
        | _ => rfl
    constructor
    · intro hne
      simp only [VM.call_value_class, hmatch]
      rw [if_pos hne]
    · rintro rfl
      simp only [VM.call_value_class, hmatch]
      rw [if_neg (by omega)]
  · exact List.getElem?_set_self hn

/-- Concrete instance of C2: calling the class of `vmW` (arity-1 `init`) with one
argument succeeds: the callee slot now holds the fresh instance and a frame for
the `init` closure was pushed with slot 0. -/
theorem call_class_spec_witness :
    (1 : Nat) < vmW.stack.length ∧
    VM.call_value_class vmW 0 1 = CallResult.ok
      { stack := [Value.number 1, Value.instanceV 0], frames := [⟨0, 0, 0⟩],
        functions := [⟨1, 9⟩], closures := [⟨0, []⟩],
        classes := [⟨0, [(5, Value.closure 0)]⟩], instObjects := [⟨0, []⟩],
        init_string := 5 } := by
  refine ⟨by decide, ?_⟩
  have h := ((call_class_spec vmW 0 1 (by decide)).1 0 1 rfl rfl).2 rfl (by decide)
  rw [h]
  rfl

/-- C8: the scanner's identifier continuation accepts only ASCII letters and `_`,
never digits: a token started by a letter or `_` extends exactly over the
following letters and underscores and stops at the first other character — in
particular a digit terminates it, so `a1` scans as identifier `a` followed by
number `1`. -/
theorem identifier_continuation_spec :
    (∀ (c : Char) (rest : List Char) (line : Nat), isIdentCont c = true →
      scan_token (c :: rest) line =
        some (⟨identifier_type (String.mk (c :: rest.takeWhile isIdentCont)),
               String.mk (c :: rest.takeWhile isIdentCont), line⟩,
              rest.dropWhile isIdentCont, line))
  ∧ (∀ d : Char, is_ascii_digit d = true → isIdentCont d = false)
  ∧ scanAll 3 "a1".toList 1 =
      [⟨.Identifier, "a", 1⟩, ⟨.Number, "1", 1⟩, ⟨.Eof, "", 1⟩] := by
  have hgen : ∀ (c : Char) (rest : List Char) (line : Nat), isIdentCont c = true →
      scan_token (c :: rest) line = scan_identifier c rest line := by
    intro c rest line h
    have hne : ∀ x : Char, isIdentCont x = false → ¬(c = x) := by
      intro x hx hcx
      rw [hcx, hx] at h
      exact Bool.false_ne_true h
    have h2 : is_ascii_alphabetic c = true ∨ (c == '_') = true := by
      have h3 := h
      simp only [isIdentCont, Bool.or_eq_true] at h3
      exact h3
    have hdig : is_ascii_digit c = false := by
      cases hd : is_ascii_digit c with
      | false => rfl
      | true =>
        exfalso
        simp only [is_ascii_digit, Bool.and_eq_true, decide_eq_true_eq] at hd
        rcases h2 with ha | hu
        · simp only [is_ascii_alphabetic, Bool.or_eq_true, Bool.and_eq_true,
            decide_eq_true_eq] at ha
          omega
        · have hc : c = '_' := by simpa using hu
          subst hc
          exact absurd hd (by decide)
    have hcond : (is_ascii_alphabetic c || decide (c = '_')) = true := by
      rcases h2 with ha | hu
      · simp [ha]
      · have hc : c = '_' := by simpa using hu
        simp [hc]
    unfold scan_token
    rw [if_neg (hne '(' (by decide)), if_neg (hne ')' (by decide)),
        if_neg (hne (Char.ofNat 123) (by decide)), if_neg (hne (Char.ofNat 125) (by decide)),
        if_neg (hne ';' (by decide)), if_neg (hne ',' (by decide)),
        if_neg (hne '.' (by decide)), if_neg (hne '-' (by decide)),
        if_neg (hne '+' (by decide)), if_neg (hne '/' (by decide)),
        if_neg (hne '*' (by decide)), if_neg (hne '!' (by decide)),
        if_neg (hne '=' (by decide)), if_neg (hne '<' (by decide)),
        if_neg (hne '>' (by decide)),
        if_neg (by push_neg; exact ⟨hne ' ' (by decide), hne '\t' (by decide),
          hne '\r' (by decide)⟩),
        if_neg (hne '\n' (by decide)), if_neg (hne '"' (by decide))]
    rw [if_neg (by rw [hdig]; exact Bool.false_ne_true), if_pos hcond]
  refine ⟨?_, ?_, ?_⟩
  · intro c rest line h
    rw [hgen c rest line h]
    rfl
  · intro d hd
    cases hi : isIdentCont d with
    | false => rfl
    | true =>
      exfalso
      simp only [is_ascii_digit, Bool.and_eq_true, decide_eq_true_eq] at hd
      simp only [isIdentCont, Bool.or_eq_true] at hi
      rcases hi with ha | hu
      · simp only [is_ascii_alphabetic, Bool.or_eq_true, Bool.and_eq_true,
          decide_eq_true_eq] at ha
        omega
      · have hc : d = '_' := by simpa using hu
        subst hc
        exact absurd hd (by decide)
  · have h1 : scan_token ['a', '1'] 1 = scan_identifier 'a' ['1'] 1 :=
      hgen 'a' ['1'] 1 (by decide)
    have e1 : "a1".toList = ['a', '1'] := by decide
    have h4 : scan_token ['1'] 1 = some (⟨.Number, "1", 1⟩, ([] : List Char), 1) := by
      unfold scan_token
      decide
    have h5 : scan_token ([] : List Char) 1 = none := by
      unfold scan_token
      rfl
    have h6 : scan_identifier 'a' ['1'] 1 =
        some (⟨.Identifier, "a", 1⟩, ['1'], 1) := by decide
    simp only [scanAll, e1, h1, h6, h4, h5]

/-- Concrete instance of C8: an identifier starting at `a` with `1bc` following
stops before the digit `1`. -/
theorem identifier_continuation_spec_witness :
    isIdentCont 'a' = true ∧
    scan_token ('a' :: "1bc".toList) 1 =
      some (⟨identifier_type (String.mk ('a' :: ("1bc".toList).takeWhile isIdentCont)),
             String.mk ('a' :: ("1bc".toList).takeWhile isIdentCont), 1⟩,
            ("1bc".toList).dropWhile isIdentCont, 1) :=
  ⟨by decide, identifier_continuation_spec.1 'a' "1bc".toList 1 (by decide)⟩

end Rox
